import Mathlib

/-!
Verification of the CookWise RAG backend (src/backend/app.py).

The file gives a shallow embedding of the pure logic of the backend.  External
collaborators are modelled as oracles passed in explicitly:

* the Wikipedia summary endpoint is `wiki : String → Option (String × String)`
  (`none` models a request exception or a non-200 status; `some (extract, url)`
  models a 200 response with its JSON fields, defaults already applied);
* `uuid.uuid4()` is `uuid : Nat → String`; the i-th call made while serving one
  request is modelled as `uuid i`;
* the Gemini embedding endpoint is `String → Except String (List Float)`
  (`.error` models any exception raised by the HTTP call or JSON parsing);
* the Gemini generation endpoint is `String → Except String String` over the
  already-rendered prompt text (`.error cause` models any exception);
* the chromadb similarity search is a `retrieve` oracle over the stored
  entries (its internals are library code; the relevant behaviour is stated
  as hypotheses where a theorem needs it).

Machine floats never need to be computed on: the embedded code only builds,
stores and measures embedding vectors, so `Float` stays abstract.
-/

set_option maxRecDepth 16384

/-- Python `str.strip()`: remove whitespace from both ends. -/
def pyStrip (s : String) : String :=
  String.mk (((s.data.dropWhile Char.isWhitespace).reverse.dropWhile
    Char.isWhitespace).reverse)

/-! ## Data model: the chroma collection -/

/-- One stored record of the chroma collection: `collection.add` receives
parallel lists `documents`, `metadatas`, `ids`, `embeddings`; positionally
aligned components form one record. -/
structure Entry where
  doc : String
  meta : List (String × String)
  id : String
  embedding : List Float

/-- Modelled from the spec: the chromadb collection `cook_knowledge`
(library code, not under src/) — an append-only store of records, kept in
insertion order. -/
structure Collection where
  entries : List Entry

/-- Align the four parallel lists passed to `collection.add` into records. -/
def mkEntries : List String → List (List (String × String)) → List String →
    List (List Float) → List Entry
  | d :: ds, m :: ms, i :: ids, e :: es => ⟨d, m, i, e⟩ :: mkEntries ds ms ids es
  | _, _, _, _ => []

/-- Modelled from the spec: chromadb `collection.add` (not under src/) —
append-only insertion of the given records after the existing ones. -/
def Collection.add (c : Collection) (docs : List String)
    (metas : List (List (String × String))) (ids : List String)
    (embeddings : List (List Float)) : Collection :=
  ⟨c.entries ++ mkEntries docs metas ids embeddings⟩

/-- Modelled from the spec: chromadb `collection.count()` (not under src/) —
the current number of stored records. -/
def Collection.count (c : Collection) : Nat :=
  c.entries.length

/-! ## `embed_texts` (app.py lines 54-87) -/

/-- The fallback dimension chosen inside `embed_texts` when a provider call
fails: `len(embeddings[0])` if some embedding was already appended in this
batch, else the default 768. -/
def batchDim : List (List Float) → Nat
  | [] => 768
  | e0 :: _ => e0.length

/-- The `for text in texts` loop of `embed_texts`: on success the provider
vector is appended; on failure a zero vector of dimension `batchDim` of the
embeddings accumulated so far (the error is only logged). -/
def embedLoop (p : String → Except String (List Float)) :
    List String → List (List Float) → List (List Float)
  | [], embeddings => embeddings
  | text :: rest, embeddings =>
    match p text with
    | .ok vec => embedLoop p rest (embeddings ++ [vec])
    | .error _ =>
        embedLoop p rest (embeddings ++ [List.replicate (batchDim embeddings) (0.0 : Float)])

/-- Model of `embed_texts` (app.py lines 54-87): one Gemini embedding call per input
text, accumulating results in order; never raises. -/
def embed_texts (p : String → Except String (List Float))
    (texts : List String) : List (List Float) :=
  embedLoop p texts []

/-! ## Conversation turns and prompt rendering -/

/-- One entry of the request `history`: a JSON object whose `role` and
`content` keys may both be absent (`h.get(...)` returning `None`). -/
structure Turn where
  role : Option String
  content : Option String

/-- A `{role, content}` chat message built by the backend itself. -/
structure Message where
  role : String
  content : String
deriving DecidableEq

/-- Model of `build_prompt_from_messages` (app.py lines 90-107): skip messages with
empty content, label each line by role and join with blank lines. -/
def build_prompt_from_messages (messages : List Message) : String :=
  String.intercalate "\n\n" (messages.filterMap (fun m =>
    if m.content = "" then none
    else some ((if m.role = "system" then "System"
                else if m.role = "assistant" then "Assistant"
                else "User") ++ ": " ++ m.content)))

/-- The history filter of `chat` (app.py lines 249-253): a turn is kept only
when its role is exactly `user` or `assistant` and its content is present and
non-empty (Python `role in ("user", "assistant") and content`). -/
def keepTurn (t : Turn) : Option Message :=
  match t.role, t.content with
  | some role, some content =>
      if (role == "user" || role == "assistant") && content != "" then
        some ⟨role, content⟩
      else none
  | _, _ => none

/-- The messages contributed by `history[-6:]` in `chat`: last six turns,
filtered through `keepTurn`. -/
def historyMessages (history : List Turn) : List Message :=
  (history.drop (history.length - 6)).filterMap keepTurn

/-- The fixed persona instruction (app.py lines 236-241). -/
def SYSTEM_INSTRUCTION : String :=
  "You are CookWise, an expert cooking assistant. " ++
  "Answer ONLY using the provided context. " ++
  "If something is unknown, say you are not sure " ++
  "instead of making it up."

/-- The full message sequence assembled by `chat` (app.py lines 233-255). -/
def chatMessages (context_str : String) (history : List Turn)
    (user_message : String) : List Message :=
  ([Message.mk "system" SYSTEM_INSTRUCTION,
    Message.mk "system" ("Knowledge base context:\n" ++ context_str)]
      ++ historyMessages history)
    ++ [Message.mk "user" user_message]

/-! ## Context building (app.py lines 222-230) -/

/-- One context block: `f"Title: {title}\nSource: {source}\nContent: {text}"`
with `meta.get("title", "Unknown")` and `meta.get("source", "")`. -/
def contextBlock (text : String) (meta : List (String × String)) : String :=
  "Title: " ++ ((meta.lookup "title").getD "Unknown") ++
  "\nSource: " ++ ((meta.lookup "source").getD "") ++
  "\nContent: " ++ text

/-- The context string: blocks for the retrieved documents zipped with their
metadata, joined by the fixed separator. -/
def buildContext (docs : List String)
    (metadatas : List (List (String × String))) : String :=
  String.intercalate "\n\n---\n\n" (List.zipWith contextBlock docs metadatas)

/-! ## Ingestion (app.py lines 117-188) -/

/-- The Wikipedia topic list (app.py lines 28-39). -/
def TOPICS : List String :=
  ["Italian cuisine", "Indian cuisine", "Chinese cuisine", "Baking",
   "Grilling", "Spices", "Veganism", "Food safety",
   "Mediterranean cuisine", "Dessert"]

/-- The parallel `docs`, `metas`, `ids` lists accumulated by `ingest`. -/
structure IngestData where
  docs : List String
  metas : List (List (String × String))
  ids : List String

/-- The Wikipedia loop of `ingest` (app.py lines 131-160): failed requests,
non-200 statuses and empty extracts are skipped; an accepted topic appends
its extract, a `{title, source}` metadata record, and a fresh uuid. -/
def fetchDocs (wiki : String → Option (String × String))
    (uuid : Nat → String) : IngestData :=
  TOPICS.foldl (fun acc title =>
    match wiki title with
    | none => acc
    | some (text, page_url) =>
        if text = "" then acc
        else ⟨acc.docs ++ [text],
              acc.metas ++ [[("title", title), ("source", page_url)]],
              acc.ids ++ [uuid acc.docs.length]⟩)
    ⟨[], [], []⟩

/-- The built-in fallback dataset (app.py lines 165-174). -/
def fallback_docs : List String :=
  ["Italian cuisine is known for pasta, pizza, olive oil, tomatoes, herbs like basil and oregano, and simple recipes that focus on fresh ingredients.",
   "Indian cuisine uses a large variety of spices such as turmeric, cumin, coriander, garam masala, chili, and often combines them in layered curries.",
   "Baking is a dry-heat cooking method that uses an oven. Common baked foods include bread, cakes, cookies, and pies.",
   "Grilling cooks food over direct high heat, usually from below, creating smoky flavors and grill marks on meat and vegetables.",
   "Food safety in the kitchen includes washing hands, avoiding cross-contamination of raw meat and vegetables, cooking meat to safe internal temperatures, and refrigerating leftovers quickly.",
   "Mediterranean cuisine emphasizes vegetables, legumes, whole grains, olive oil, fish, and moderate dairy, and is associated with heart-health benefits.",
   "Vegan cooking avoids all animal products, including meat, dairy, eggs, and honey, and often uses beans, lentils, tofu, and nuts for protein.",
   "Desserts include sweet dishes like cakes, ice cream, custards, and pastries, usually served at the end of a meal."]

/-- The data-collection phase of `ingest`: the Wikipedia loop, then, when it gave
nothing, the fallback loop (app.py lines 162-180) appending the built-in
documents with `Fallback doc {i+1}` titles, the `local-fallback` source
sentinel, and fresh uuids (the uuid counter is still at zero because no
document was accepted before the fallback runs). -/
def ingestData (wiki : String → Option (String × String))
    (uuid : Nat → String) : IngestData :=
  let d := fetchDocs wiki uuid
  if d.docs = [] then
    ⟨d.docs ++ fallback_docs,
     d.metas ++ (List.range fallback_docs.length).map (fun i =>
       [("title", "Fallback doc " ++ toString (i + 1)), ("source", "local-fallback")]),
     d.ids ++ (List.range fallback_docs.length).map uuid⟩
  else d

/-- Model of `ingest` (app.py lines 117-188): collect documents, embed them, append
everything to the collection via `collection.add`, and report
`documents_added = len(docs)`. -/
def ingest (wiki : String → Option (String × String)) (uuid : Nat → String)
    (embedP : String → Except String (List Float)) (c : Collection) :
    Collection × Nat :=
  let d := ingestData wiki uuid
  (c.add d.docs d.metas d.ids (embed_texts embedP d.docs), d.docs.length)

/-! ## The chat endpoint (app.py lines 191-287) -/

/-- The request body of `POST /chat`; `none` models an absent key. -/
structure ChatRequest where
  message : Option String
  history : List Turn

/-- The external capabilities `chat` uses: the embedding provider, the chroma
similarity search (modelled from the spec: library code, a query over the
stored entries returning retrieved entries), and the generation provider. -/
structure ChatDeps where
  embedP : String → Except String (List Float)
  retrieve : List Entry → List Float → Nat → List Entry
  genP : String → Except String String

/-- A network call attempted by `chat`, in order. -/
inductive NetCall where
  | embedCall (text : String)
  | genCall (prompt : String)
deriving DecidableEq

/-- The JSON body (plus status) `chat` responds with. -/
inductive ChatResponse where
  | error (status : Nat) (message : String)
  | ok (answer : String) (sources : List (List (String × String)))
deriving DecidableEq

/-- The `sources` list of a successful response, if any. -/
def ChatResponse.retrievedSources :
    ChatResponse → Option (List (List (String × String)))
  | .ok _ sources => some sources
  | .error _ _ => none

/-- The computation `data.get("message", "").strip()` (app.py line 203). -/
def chatUserMessage (req : ChatRequest) : String :=
  pyStrip (req.message.getD "")

/-- Steps 1-2 of `chat` (app.py lines 215-218): embed the query (taking
element 0 of the one-element batch) and run the top-5 similarity query. -/
def chatRetrieved (deps : ChatDeps) (c : Collection) (req : ChatRequest) :
    List Entry :=
  deps.retrieve c.entries
    ((embed_texts deps.embedP [chatUserMessage req]).headD []) 5

/-- The context string `chat` builds from the retrieved documents and their
metadata (app.py lines 219-230). -/
def chatContext (deps : ChatDeps) (c : Collection) (req : ChatRequest) :
    String :=
  buildContext ((chatRetrieved deps c req).map Entry.doc)
    ((chatRetrieved deps c req).map Entry.meta)

/-- The prompt text sent to the generation endpoint (app.py line 257). -/
def chatPrompt (deps : ChatDeps) (c : Collection) (req : ChatRequest) :
    String :=
  build_prompt_from_messages
    (chatMessages (chatContext deps c req) req.history (chatUserMessage req))

/-- Model of `chat` (app.py lines 191-287).  Returns the response together with the
trace of provider calls attempted, in order. -/
def chat (deps : ChatDeps) (c : Collection) (req : ChatRequest) :
    ChatResponse × List NetCall :=
  if chatUserMessage req = "" then
    (.error 400 "message is required", [])
  else if c.count = 0 then
    (.error 400 "Knowledge base is empty. Call /ingest first.", [])
  else
    match deps.genP (chatPrompt deps c req) with
    | .ok answer =>
        (.ok (pyStrip answer) ((chatRetrieved deps c req).map Entry.meta),
         [.embedCall (chatUserMessage req), .genCall (chatPrompt deps c req)])
    | .error _ =>
        (.error 500 "LLM generation failed",
         [.embedCall (chatUserMessage req), .genCall (chatPrompt deps c req)])

/-! ## Helper lemmas -/

/-- Per-text view of the embedding loop once one embedding has been
appended: from then on the fallback dimension is frozen to the length of the
first element of the accumulator. -/
def embedRest (p : String → Except String (List Float)) (dim : Nat) :
    List String → List (List Float)
  | [] => []
  | t :: rest =>
      (match p t with
       | .ok v => v
       | .error _ => List.replicate dim (0.0 : Float)) :: embedRest p dim rest

theorem embedRest_eq_map (p : String → Except String (List Float)) (dim : Nat)
    (ts : List String) :
    embedRest p dim ts = ts.map (fun t =>
      match p t with
      | .ok v => v
      | .error _ => List.replicate dim (0.0 : Float)) := by
  induction ts with
  | nil => rfl
  | cons t rest ih => simp [embedRest, ih]

theorem embedLoop_cons_acc (p : String → Except String (List Float))
    (ts : List String) : ∀ (e0 : List Float) (acc : List (List Float)),
    embedLoop p ts (e0 :: acc) = (e0 :: acc) ++ embedRest p e0.length ts := by
  induction ts with
  | nil => intro e0 acc; simp [embedLoop, embedRest]
  | cons t rest ih =>
      intro e0 acc
      cases h : p t with
      | ok v =>
          have h1 : (e0 :: acc) ++ [v] = e0 :: (acc ++ [v]) := rfl
          simp only [embedLoop, h, h1, ih, embedRest]
          simp
      | error err =>
          have h1 : (e0 :: acc) ++ [List.replicate (batchDim (e0 :: acc)) (0.0 : Float)]
              = e0 :: (acc ++ [List.replicate e0.length (0.0 : Float)]) := rfl
          simp only [embedLoop, h, h1, ih, embedRest]
          simp

theorem embed_texts_cons (p : String → Except String (List Float))
    (t : String) (rest : List String) :
    embed_texts p (t :: rest) =
      (match p t with
       | .ok v => v :: embedRest p v.length rest
       | .error _ =>
           List.replicate 768 (0.0 : Float) :: embedRest p 768 rest) := by
  cases h : p t with
  | ok v =>
      simp only [embed_texts, embedLoop, h]
      have : ([] : List (List Float)) ++ [v] = v :: [] := rfl
      rw [this, embedLoop_cons_acc]
      simp
  | error err =>
      simp only [embed_texts, embedLoop, h]
      have : ([] : List (List Float)) ++ [List.replicate (batchDim []) (0.0 : Float)]
          = List.replicate 768 (0.0 : Float) :: [] := rfl
      rw [this, embedLoop_cons_acc]
      simp

theorem embed_texts_length (p : String → Except String (List Float))
    (ts : List String) : (embed_texts p ts).length = ts.length := by
  cases ts with
  | nil => rfl
  | cons t rest =>
      rw [embed_texts_cons]
      cases h : p t <;> simp [h, embedRest_eq_map]

theorem embed_texts_getElem (p : String → Except String (List Float))
    (ts : List String) (i : Nat) :
    (embed_texts p ts)[i]? = (ts[i]?).map (fun t =>
      match p t with
      | .ok v => v
      | .error _ =>
          List.replicate (batchDim ((embed_texts p ts).take i)) (0.0 : Float)) := by
  cases ts with
  | nil => simp [embed_texts, embedLoop]
  | cons t rest =>
      rw [embed_texts_cons]
      cases h : p t with
      | ok v =>
          cases i with
          | zero => simp [h]
          | succ j =>
              simp only [List.getElem?_cons_succ, List.take_succ_cons, batchDim,
                embedRest_eq_map, List.getElem?_map, h]
      | error err =>
          cases i with
          | zero =>
              simp only [List.getElem?_cons_zero, Option.map_some', h, List.take_zero]
              rfl
          | succ j =>
              simp only [List.getElem?_cons_succ, List.take_succ_cons, batchDim,
                embedRest_eq_map, List.getElem?_map, h, List.length_replicate]

/-- The boolean retention test of the history loop: role present and exactly
`user` or `assistant`, content present and non-empty. -/
def turnKept (t : Turn) : Bool :=
  match t.role, t.content with
  | some role, some content => (role == "user" || role == "assistant") && content != ""
  | _, _ => false

theorem keepTurn_eq (t : Turn) :
    keepTurn t = if turnKept t then
      some (Message.mk (t.role.getD "user") (t.content.getD "")) else none := by
  cases t with
  | mk r c => cases r <;> cases c <;> simp [keepTurn, turnKept]

theorem filterMap_keepTurn_eq (l : List Turn) :
    l.filterMap keepTurn = (l.filter turnKept).map
      (fun t => Message.mk (t.role.getD "user") (t.content.getD "")) := by
  induction l with
  | nil => rfl
  | cons t rest ih =>
      rw [List.filterMap_cons, List.filter_cons, keepTurn_eq]
      by_cases h : turnKept t <;> simp [h, ih]

theorem turnKept_roles (t : Turn) (h : turnKept t = true) :
    (t.role.getD "user" == "user" || t.role.getD "user" == "assistant")
      && t.content.getD "" != "" := by
  cases t with
  | mk r c =>
      cases r with
      | none => simp [turnKept] at h
      | some role =>
          cases c with
          | none => simp [turnKept] at h
          | some content => simpa [turnKept] using h

theorem intercalate_go_acc (s : String) (as : List String) :
    ∀ (x y : String), String.intercalate.go (x ++ y) s as
      = x ++ String.intercalate.go y s as := by
  induction as with
  | nil => intro x y; rfl
  | cons a as ih =>
      intro x y
      show String.intercalate.go (x ++ y ++ s ++ a) s as
        = x ++ String.intercalate.go (y ++ s ++ a) s as
      have h1 : x ++ y ++ s ++ a = x ++ (y ++ s ++ a) := by
        rw [String.append_assoc, String.append_assoc, String.append_assoc]
      rw [h1, ih]

theorem intercalate_cons (s x : String) (xs : List String) :
    String.intercalate s (x :: xs)
      = x ++ (if xs = [] then "" else s ++ String.intercalate s xs) := by
  cases xs with
  | nil => simp [String.intercalate, String.intercalate.go]
  | cons y ys =>
      show String.intercalate.go (x ++ s ++ y) s ys = _
      rw [String.append_assoc, intercalate_go_acc s ys x (s ++ y)]
      have : String.intercalate.go (s ++ y) s ys
          = s ++ String.intercalate.go y s ys := intercalate_go_acc s ys s y
      rw [this]
      simp [String.intercalate, String.append_assoc]

/-- Alignment invariant of the parallel ingestion lists: metadata and id
lists track the document list, ids are the successive fresh uuids, and every
metadata record has exactly the keys `title` and `source`. -/
def goodData (uuid : Nat → String) (d : IngestData) : Prop :=
  d.metas.length = d.docs.length ∧
  d.ids = (List.range d.docs.length).map uuid ∧
  d.metas.map (fun m => m.map Prod.fst)
    = List.replicate d.docs.length ["title", "source"]

theorem fetchDocs_good (wiki : String → Option (String × String))
    (uuid : Nat → String) : goodData uuid (fetchDocs wiki uuid) := by
  have main : ∀ (l : List String) (acc : IngestData), goodData uuid acc →
      goodData uuid (l.foldl (fun acc title =>
        match wiki title with
        | none => acc
        | some (text, page_url) =>
            if text = "" then acc
            else ⟨acc.docs ++ [text],
                  acc.metas ++ [[("title", title), ("source", page_url)]],
                  acc.ids ++ [uuid acc.docs.length]⟩) acc) := by
    intro l
    induction l with
    | nil => intro acc h; exact h
    | cons t rest ih =>
        intro acc h
        rw [List.foldl_cons]
        apply ih
        cases hw : wiki t with
        | none => simpa [hw] using h
        | some pr =>
            obtain ⟨text, page_url⟩ := pr
            by_cases ht : text = ""
            · simpa [hw, ht] using h
            · obtain ⟨h1, h2, h3⟩ := h
              refine ⟨?_, ?_, ?_⟩
              · simp [hw, ht, h1]
              · simp only [hw, ht, if_false]
                rw [h2]
                simp [List.range_succ]
              · simp only [hw, ht, if_false]
                simp only [List.map_append, List.map_cons, List.map_nil, h3,
                  List.length_append, List.length_cons, List.length_nil]
                rw [← List.replicate_succ']
  exact main TOPICS ⟨[], [], []⟩ ⟨rfl, rfl, rfl⟩

theorem ingestData_good (wiki : String → Option (String × String))
    (uuid : Nat → String) : goodData uuid (ingestData wiki uuid) := by
  obtain ⟨h1, h2, h3⟩ := fetchDocs_good wiki uuid
  unfold ingestData
  by_cases hd : (fetchDocs wiki uuid).docs = []
  · rw [hd] at h1 h2 h3
    simp only [List.length_nil, List.range_zero, List.map_nil,
      List.replicate_zero, List.map_eq_nil_iff] at h1 h2 h3
    have hm : (fetchDocs wiki uuid).metas = []
      := List.eq_nil_of_length_eq_zero h1
    refine ⟨?_, ?_, ?_⟩ <;> simp only [hd, if_true, hm, h2, List.nil_append]
    all_goals rfl
  · simp only [hd, if_false]
    exact ⟨h1, h2, h3⟩

theorem mkEntries_parts (ds : List String) :
    ∀ (ms : List (List (String × String))) (ids : List String)
      (es : List (List Float)),
    ms.length = ds.length → ids.length = ds.length → es.length = ds.length →
    (mkEntries ds ms ids es).map Entry.doc = ds ∧
    (mkEntries ds ms ids es).map Entry.meta = ms ∧
    (mkEntries ds ms ids es).map Entry.id = ids ∧
    (mkEntries ds ms ids es).length = ds.length := by
  induction ds with
  | nil =>
      intro ms ids es h1 h2 h3
      rw [List.length_nil, List.length_eq_zero] at h1 h2 h3
      subst h1; subst h2; subst h3
      exact ⟨rfl, rfl, rfl, rfl⟩
  | cons d ds ih =>
      intro ms ids es h1 h2 h3
      cases ms with
      | nil => simp at h1
      | cons m ms =>
          cases ids with
          | nil => simp at h2
          | cons i ids =>
              cases es with
              | nil => simp at h3
              | cons e es =>
                  simp only [List.length_cons, Nat.succ.injEq] at h1 h2 h3
                  obtain ⟨g1, g2, g3, g4⟩ := ih ms ids es h1 h2 h3
                  exact ⟨by simp [mkEntries, g1], by simp [mkEntries, g2],
                    by simp [mkEntries, g3], by simp [mkEntries, g4]⟩

theorem ingest_parts (wiki : String → Option (String × String))
    (uuid : Nat → String) (embedP : String → Except String (List Float))
    (c : Collection) :
    ((ingest wiki uuid embedP c).1.entries.drop c.count).map Entry.doc
        = (ingestData wiki uuid).docs ∧
    ((ingest wiki uuid embedP c).1.entries.drop c.count).map Entry.meta
        = (ingestData wiki uuid).metas ∧
    ((ingest wiki uuid embedP c).1.entries.drop c.count).map Entry.id
        = (ingestData wiki uuid).ids ∧
    (ingest wiki uuid embedP c).1.count = c.count + (ingest wiki uuid embedP c).2 ∧
    (ingest wiki uuid embedP c).1.entries.take c.count = c.entries := by
  obtain ⟨h1, h2, h3⟩ := ingestData_good wiki uuid
  have hids : (ingestData wiki uuid).ids.length = (ingestData wiki uuid).docs.length := by
    rw [h2]; simp
  obtain ⟨g1, g2, g3, g4⟩ := mkEntries_parts (ingestData wiki uuid).docs
    (ingestData wiki uuid).metas (ingestData wiki uuid).ids
    (embed_texts embedP (ingestData wiki uuid).docs) h1 hids
    (embed_texts_length embedP (ingestData wiki uuid).docs)
  have hentries : (ingest wiki uuid embedP c).1.entries
      = c.entries ++ mkEntries (ingestData wiki uuid).docs
          (ingestData wiki uuid).metas (ingestData wiki uuid).ids
          (embed_texts embedP (ingestData wiki uuid).docs) := rfl
  have hadded : (ingest wiki uuid embedP c).2
      = (ingestData wiki uuid).docs.length := rfl
  have hdrop : (ingest wiki uuid embedP c).1.entries.drop c.count
      = mkEntries (ingestData wiki uuid).docs (ingestData wiki uuid).metas
          (ingestData wiki uuid).ids
          (embed_texts embedP (ingestData wiki uuid).docs) := by
    rw [hentries]
    exact List.drop_left c.entries _
  refine ⟨by rw [hdrop, g1], by rw [hdrop, g2], by rw [hdrop, g3], ?_, ?_⟩
  · show (ingest wiki uuid embedP c).1.entries.length = _
    rw [hentries, List.length_append, g4, hadded]
    rfl
  · rw [hentries]
    exact List.take_left c.entries _

/-! ## Concrete fixtures -/

/-- A Wikipedia oracle for which every topic request fails. -/
def wikiNone : String → Option (String × String) := fun _ => none

/-- A deterministic stand-in for the stream of `uuid.uuid4()` results. -/
def uuidW : Nat → String := fun i => "uuid-" ++ toString i

/-- An embedding provider whose calls always fail. -/
def embedErr : String → Except String (List Float) := fun _ => .error "network down"

/-- Chat dependencies: failing embedder, retrieval returning the first k
stored entries, generator that always answers. -/
def depsTake : ChatDeps :=
  ⟨embedErr, fun es _ k => es.take k, fun _ => .ok "an answer"⟩

/-- Chat dependencies whose generation call fails. -/
def depsFail : ChatDeps :=
  ⟨embedErr, fun es _ k => es.take k, fun _ => .error "boom"⟩

/-- A pre-existing record, for ingesting into a non-empty store. -/
def oldEntry : Entry :=
  ⟨"Old doc", [("title", "Old"), ("source", "old")], "old-id", []⟩

/-- An embedding provider that succeeds only on "b", with dimension 2. -/
def pEx : String → Except String (List Float) :=
  fun t => if t = "b" then .ok [1.0, 2.0] else .error "fail"

/-! ## Claims -/

/-- Claim C1 (corrected): `ingest` does not replace the index; it appends.
After a call that indexes N documents, `count()` equals the previous count
plus N, and the previously stored entries are untouched: they remain the
prefix of the store, so prior documents stay reachable by queries. -/
theorem ingest_appends (wiki : String → Option (String × String))
    (uuid : Nat → String) (embedP : String → Except String (List Float))
    (c : Collection) :
    (ingest wiki uuid embedP c).1.count
      = c.count + (ingest wiki uuid embedP c).2 ∧
    (ingest wiki uuid embedP c).1.entries.take c.count = c.entries := by
  obtain ⟨-, -, -, h4, h5⟩ := ingest_parts wiki uuid embedP c
  exact ⟨h4, h5⟩

/-- Claim C1 counterexample: ingesting (fallback path, N = 8 documents) into
a store already holding one record yields count 9 ≠ 8, the prior record is
still the first stored entry, and a subsequent chat (retrieval modelled as
returning stored entries) surfaces its metadata among the sources — prior
contents are neither discarded nor unreachable. -/
theorem ingest_replace_counterexample :
    (ingest wikiNone uuidW embedErr ⟨[oldEntry]⟩).2 = 8 ∧
    (ingest wikiNone uuidW embedErr ⟨[oldEntry]⟩).1.count = 9 ∧
    ¬ (ingest wikiNone uuidW embedErr ⟨[oldEntry]⟩).1.count
        = (ingest wikiNone uuidW embedErr ⟨[oldEntry]⟩).2 ∧
    (ingest wikiNone uuidW embedErr ⟨[oldEntry]⟩).1.entries.head?
      = some oldEntry ∧
    ((chat depsTake (ingest wikiNone uuidW embedErr ⟨[oldEntry]⟩).1
        ⟨some "hi", []⟩).1.retrievedSources.getD []).head?
      = some [("title", "Old"), ("source", "old")] := by
  exact ⟨rfl, rfl, by decide, rfl, rfl⟩

/-- Claim C2 (confirmed): `chat` checks its preconditions before any provider
call: an empty or missing message yields the 400 "message is required"
response with an empty network-call trace, and a non-empty message against an
empty collection yields the 400 empty-knowledge-base response, again with no
embedding or generation call attempted. -/
theorem chat_preconditions (deps : ChatDeps) (c : Collection)
    (req : ChatRequest) :
    (chatUserMessage req = "" →
      chat deps c req = (.error 400 "message is required", [])) ∧
    (chatUserMessage req ≠ "" → c.count = 0 →
      chat deps c req
        = (.error 400 "Knowledge base is empty. Call /ingest first.", [])) := by
  constructor
  · intro h
    simp [chat, h]
  · intro h hc
    simp [chat, h, hc]

/-- Witness for C2 at concrete requests: a missing message, and a non-empty
message against the empty collection. -/
theorem chat_preconditions_witness :
    chat depsTake ⟨[]⟩ ⟨none, []⟩ = (.error 400 "message is required", []) ∧
    chat depsTake ⟨[]⟩ ⟨some "hello", []⟩
      = (.error 400 "Knowledge base is empty. Call /ingest first.", []) :=
  ⟨(chat_preconditions depsTake ⟨[]⟩ ⟨none, []⟩).1 rfl,
   (chat_preconditions depsTake ⟨[]⟩ ⟨some "hello", []⟩).2 (by decide) rfl⟩

/-- Claim C3 (confirmed): whatever failure the generation provider raises,
`chat` answers with the single generic 500 response "LLM generation failed";
the cause does not appear in the response, and the trace shows exactly one
generation attempt — no retry. -/
theorem chat_generation_failed (deps : ChatDeps) (c : Collection)
    (req : ChatRequest) (cause : String)
    (hmsg : chatUserMessage req ≠ "") (hc : c.count ≠ 0)
    (hfail : deps.genP (chatPrompt deps c req) = .error cause) :
    chat deps c req = (.error 500 "LLM generation failed",
      [.embedCall (chatUserMessage req), .genCall (chatPrompt deps c req)]) := by
  simp [chat, hmsg, hc, hfail]

/-- Witness for C3 at a concrete failing generator. -/
theorem chat_generation_failed_witness :
    chat depsFail ⟨[oldEntry]⟩ ⟨some "hello", []⟩
      = (.error 500 "LLM generation failed",
         [.embedCall (chatUserMessage ⟨some "hello", []⟩),
          .genCall (chatPrompt depsFail ⟨[oldEntry]⟩ ⟨some "hello", []⟩)]) :=
  chat_generation_failed depsFail ⟨[oldEntry]⟩ ⟨some "hello", []⟩ "boom"
    (by decide) (by decide) rfl

/-- Claim C4 (corrected): history entries with empty or missing content are
skipped, and every retained entry has role exactly user or assistant — but
an entry whose role is anything else (or missing) is itself skipped rather
than defaulted to user; retained entries keep their original role. -/
theorem history_filter_roles (history : List Turn) :
    historyMessages history =
      ((history.drop (history.length - 6)).filter turnKept).map
        (fun t => Message.mk (t.role.getD "user") (t.content.getD "")) ∧
    (historyMessages history).all
      (fun m => (m.role == "user" || m.role == "assistant")
        && m.content != "") = true := by
  refine ⟨filterMap_keepTurn_eq _, ?_⟩
  rw [historyMessages, filterMap_keepTurn_eq, List.all_eq_true]
  intro m hm
  rw [List.mem_map] at hm
  obtain ⟨t, ht, rfl⟩ := hm
  rw [List.mem_filter] at ht
  simpa using turnKept_roles t ht.2

/-- Claim C4 counterexample: a history turn with role `system` and non-empty
content is dropped entirely; the claim would have it retained with role
`user`. -/
theorem history_role_counterexample :
    historyMessages [⟨some "system", some "hello"⟩] = [] ∧
    historyMessages [⟨some "system", some "hello"⟩]
      ≠ [Message.mk "user" "hello"] := by
  exact ⟨rfl, by decide⟩

/-- Claim C5 (corrected): `embed_texts` returns exactly one embedding per
input text, in input order, and never raises; but the zero vector substituted
on a provider failure has the dimension of the FIRST embedding of the batch
accumulated so far — itself possibly a fallback — or 768 when the failure is
at position 0; it is not the dimension of the most recently successfully
produced embedding. -/
theorem embed_texts_spec (p : String → Except String (List Float))
    (ts : List String) :
    (embed_texts p ts).length = ts.length ∧
    ∀ i : Nat, (embed_texts p ts)[i]? = (ts[i]?).map (fun t =>
      match p t with
      | .ok v => v
      | .error _ =>
          List.replicate (batchDim ((embed_texts p ts).take i)) (0.0 : Float)) :=
  ⟨embed_texts_length p ts, embed_texts_getElem p ts⟩

/-- Claim C5 counterexample: with failures at positions 0 and 2 and a
dimension-2 success at position 1, the fallback at position 2 has dimension
768 (the dimension of the first element), not 2 (the most recent success). -/
theorem embed_dim_counterexample :
    (embed_texts pEx ["a", "b", "c"]).map List.length = [768, 2, 768] ∧
    pEx "b" = .ok [1.0, 2.0] ∧
    pEx "c" = .error "fail" ∧
    ¬ (embed_texts pEx ["a", "b", "c"]).map List.length = [768, 2, 2] := by
  exact ⟨rfl, rfl, rfl, by decide⟩

/-- Claim C6 (confirmed): the assembled sequence is exactly [system
instruction, system context, retained turns of the last six history entries
in original relative order, new user message]; history beyond the last six
turns is discarded silently (the result depends only on the last six), and
the retained turns appear in original relative order (a sublist of the
filtered full history). -/
theorem chat_messages_order (ctx : String) (history : List Turn)
    (msg : String) :
    chatMessages ctx history msg
      = Message.mk "system" SYSTEM_INSTRUCTION
        :: Message.mk "system" ("Knowledge base context:\n" ++ ctx)
        :: (historyMessages history ++ [Message.mk "user" msg]) ∧
    (historyMessages history).length ≤ 6 ∧
    historyMessages history
      = historyMessages (history.drop (history.length - 6)) ∧
    (historyMessages history).Sublist (history.filterMap keepTurn) := by
  refine ⟨by simp [chatMessages], ?_, ?_, ?_⟩
  · have h1 : (historyMessages history).length
        ≤ (history.drop (history.length - 6)).length :=
      List.length_filterMap_le _ _
    rw [List.length_drop] at h1
    omega
  · unfold historyMessages
    rw [List.length_drop]
    have hz : history.length - (history.length - 6) - 6 = 0 := by omega
    rw [hz, List.drop_zero]
  · exact (List.drop_sublist _ _).filterMap keepTurn

theorem fetchDocs_unusable (wiki : String → Option (String × String))
    (uuid : Nat → String)
    (hwiki : ∀ t s u, wiki t = some (s, u) → s = "") :
    fetchDocs wiki uuid = ⟨[], [], []⟩ := by
  have main : ∀ (l : List String) (acc : IngestData),
      l.foldl (fun acc title =>
        match wiki title with
        | none => acc
        | some (text, page_url) =>
            if text = "" then acc
            else ⟨acc.docs ++ [text],
                  acc.metas ++ [[("title", title), ("source", page_url)]],
                  acc.ids ++ [uuid acc.docs.length]⟩) acc = acc := by
    intro l
    induction l with
    | nil => intro acc; rfl
    | cons t rest ih =>
        intro acc
        simp only [List.foldl_cons]
        cases hw : wiki t with
        | none => exact ih acc
        | some pr =>
            obtain ⟨s, u⟩ := pr
            have hs := hwiki t s u hw
            subst hs
            exact ih acc
  exact main TOPICS ⟨[], [], []⟩

theorem ingestData_unusable (wiki : String → Option (String × String))
    (uuid : Nat → String)
    (hwiki : ∀ t s u, wiki t = some (s, u) → s = "") :
    ingestData wiki uuid
      = ⟨fallback_docs,
         (List.range fallback_docs.length).map (fun i =>
           [("title", "Fallback doc " ++ toString (i + 1)),
            ("source", "local-fallback")]),
         (List.range fallback_docs.length).map uuid⟩ := by
  simp only [ingestData]
  rw [fetchDocs_unusable wiki uuid hwiki]
  rfl

/-- Claim C7 (corrected): when the external corpus source yields zero usable
documents, ingestion falls back to the static built-in set of exactly EIGHT
documents (it includes the baking and grilling texts among others), so a
subsequent chat returns a sources list of length 5 — k = 5 is not capped,
since 8 > 5 documents are available. -/
theorem ingest_fallback_chat (wiki : String → Option (String × String))
    (uuid : Nat → String) (deps : ChatDeps) (msg ans : String)
    (hwiki : ∀ t s u, wiki t = some (s, u) → s = "")
    (hretr : ∀ es q k, (deps.retrieve es q k).length = min k es.length)
    (hgen : ∀ prompt, deps.genP prompt = .ok ans)
    (hmsg : pyStrip msg ≠ "") :
    (ingest wiki uuid deps.embedP ⟨[]⟩).2 = 8 ∧
    (ingest wiki uuid deps.embedP ⟨[]⟩).1.entries.map Entry.doc
      = fallback_docs ∧
    ((chat deps (ingest wiki uuid deps.embedP ⟨[]⟩).1
        ⟨some msg, []⟩).1).retrievedSources.map List.length = some 5 := by
  have hdata := ingestData_unusable wiki uuid hwiki
  have h2 : (ingest wiki uuid deps.embedP ⟨[]⟩).2 = 8 := by
    show (ingestData wiki uuid).docs.length = 8
    rw [hdata]
    rfl
  refine ⟨h2, ?_, ?_⟩
  · obtain ⟨hdoc, -, -, -, -⟩ := ingest_parts wiki uuid deps.embedP ⟨[]⟩
    have hc : Collection.count ⟨[]⟩ = 0 := rfl
    rw [hc, List.drop_zero] at hdoc
    rw [hdoc, hdata]
  · have hcount : (ingest wiki uuid deps.embedP ⟨[]⟩).1.count = 8 := by
      obtain ⟨-, -, -, h4, -⟩ := ingest_parts wiki uuid deps.embedP ⟨[]⟩
      rw [h4, h2]
      rfl
    have hlen : (ingest wiki uuid deps.embedP ⟨[]⟩).1.entries.length = 8 :=
      hcount
    have hmsg' : chatUserMessage ⟨some msg, []⟩ ≠ "" := hmsg
    have hc0 : ¬ (ingest wiki uuid deps.embedP ⟨[]⟩).1.count = 0 := by
      rw [hcount]
      omega
    simp [chat, hmsg', hc0, hgen, ChatResponse.retrievedSources,
      chatRetrieved, hretr, hlen]

/-- Witness for C7 at concrete oracles: every Wikipedia request fails, the
retrieval is a take of the stored entries, the generator always answers. -/
theorem ingest_fallback_chat_witness :
    (ingest wikiNone uuidW depsTake.embedP ⟨[]⟩).2 = 8 ∧
    (ingest wikiNone uuidW depsTake.embedP ⟨[]⟩).1.entries.map Entry.doc
      = fallback_docs ∧
    ((chat depsTake (ingest wikiNone uuidW depsTake.embedP ⟨[]⟩).1
        ⟨some "hi", []⟩).1).retrievedSources.map List.length = some 5 :=
  ingest_fallback_chat wikiNone uuidW depsTake "hi" "an answer"
    (fun t s u h => Option.noConfusion h)
    (fun es q k => by
      show (es.take k).length = min k es.length
      rw [List.length_take])
    (fun prompt => rfl) (by decide)

/-- Claim C7 counterexample: the built-in fallback set has 8 documents, not
2, and the chat following a fallback ingestion returns 5 sources, not 2. -/
theorem fallback_two_docs_counterexample :
    fallback_docs.length = 8 ∧
    ¬ fallback_docs.length = 2 ∧
    ((chat depsTake (ingest wikiNone uuidW embedErr ⟨[]⟩).1
        ⟨some "how do I bake bread", []⟩).1).retrievedSources.map List.length
      = some 5 ∧
    ¬ ((chat depsTake (ingest wikiNone uuidW embedErr ⟨[]⟩).1
        ⟨some "how do I bake bread", []⟩).1).retrievedSources.map List.length
      = some 2 := by
  refine ⟨rfl, by decide, rfl, fun h => ?_⟩
  have h52 : (5 : Nat) = 2 := by
    have h5 : ((chat depsTake (ingest wikiNone uuidW embedErr ⟨[]⟩).1
        ⟨some "how do I bake bread", []⟩).1).retrievedSources.map List.length
        = some 5 := rfl
    exact Option.some.inj (h5.symm.trans h)
  omega

theorem lookup_id_of_keys (m : List (String × String))
    (h : m.map Prod.fst = ["title", "source"]) : m.lookup "id" = none := by
  cases m with
  | nil => simp at h
  | cons a m1 =>
      cases m1 with
      | nil => simp at h
      | cons b m2 =>
          cases m2 with
          | cons q m3 => simp at h
          | nil =>
              obtain ⟨a1, a2⟩ := a
              obtain ⟨b1, b2⟩ := b
              simp at h
              obtain ⟨h1, h2⟩ := h
              subst h1
              subst h2
              rfl

theorem lookup_id_all (ms : List (List (String × String))) :
    ∀ n : Nat,
    ms.map (fun m => m.map Prod.fst) = List.replicate n ["title", "source"] →
    ms.map (fun m => m.lookup "id") = List.replicate n none := by
  induction ms with
  | nil =>
      intro n h
      cases n with
      | zero => rfl
      | succ k => simp at h
  | cons m ms ih =>
      intro n h
      cases n with
      | zero => simp at h
      | succ k =>
          rw [List.replicate_succ] at h
          simp only [List.map_cons, List.cons.injEq] at h
          obtain ⟨h1, h2⟩ := h
          simp only [List.map_cons, List.replicate_succ,
            lookup_id_of_keys m h1, ih k h2]

/-- Claim C8 (corrected): the metadata records stored at ingestion contain
exactly the keys title and source — there is no id key; the freshly generated
per-document id is stored separately as the chroma record id, and since chat
surfaces the stored metadata records as its sources, those sources do not
include the document id. -/
theorem ingest_metadata_keys (wiki : String → Option (String × String))
    (uuid : Nat → String) (embedP : String → Except String (List Float))
    (c : Collection) :
    ((ingest wiki uuid embedP c).1.entries.drop c.count).map
        (fun e => e.meta.map Prod.fst)
      = List.replicate ((ingest wiki uuid embedP c).2) ["title", "source"] ∧
    ((ingest wiki uuid embedP c).1.entries.drop c.count).map
        (fun e => e.meta.lookup "id")
      = List.replicate ((ingest wiki uuid embedP c).2) none := by
  obtain ⟨-, hmeta, -, -, -⟩ := ingest_parts wiki uuid embedP c
  obtain ⟨-, -, h3⟩ := ingestData_good wiki uuid
  have hadded : (ingest wiki uuid embedP c).2
      = (ingestData wiki uuid).docs.length := rfl
  constructor
  · have hk := congrArg
      (List.map (fun m : List (String × String) => m.map Prod.fst)) hmeta
    rw [List.map_map] at hk
    rw [hadded, ← h3]
    exact hk
  · have hl := congrArg
      (List.map (fun m : List (String × String) => m.lookup "id")) hmeta
    rw [List.map_map] at hl
    rw [lookup_id_all (ingestData wiki uuid).metas
      (ingestData wiki uuid).docs.length h3] at hl
    rw [hadded]
    exact hl

/-- Claim C8 counterexample: after a concrete (fallback) ingestion, no stored
metadata record has an `id` key — lookups of `id` all yield none — while
title and source are present, and the sources returned by a subsequent chat
contain no id either. -/
theorem metadata_id_counterexample :
    ((ingest wikiNone uuidW embedErr ⟨[]⟩).1.entries.map
        (fun e => e.meta.lookup "id")) = List.replicate 8 none ∧
    ((ingest wikiNone uuidW embedErr ⟨[]⟩).1.entries.head?.map Entry.meta)
      = some [("title", "Fallback doc 1"), ("source", "local-fallback")] ∧
    ((chat depsTake (ingest wikiNone uuidW embedErr ⟨[]⟩).1
        ⟨some "hi", []⟩).1.retrievedSources.getD []).map
        (fun m => m.lookup "id")
      = List.replicate 5 none := by
  exact ⟨rfl, rfl, rfl⟩

/-- Claim C9 (confirmed): the context builder renders each retrieved record,
in retrieval order, as a labeled block — title defaulting to "Unknown" when
absent from the metadata, source defaulting to the empty string, then the
document content — joining consecutive blocks with the fixed separator; an
empty retrieval result (on either side of the zip) produces the empty
context string. -/
theorem buildContext_spec :
    (∀ metadatas, buildContext [] metadatas = "") ∧
    (∀ docs, buildContext docs [] = "") ∧
    (∀ (d : String) (ds : List String) (m : List (String × String))
        (ms : List (List (String × String))),
      buildContext (d :: ds) (m :: ms)
        = "Title: " ++ ((m.lookup "title").getD "Unknown")
          ++ "\nSource: " ++ ((m.lookup "source").getD "")
          ++ "\nContent: " ++ d
          ++ (if ds = [] ∨ ms = [] then ""
              else "\n\n---\n\n" ++ buildContext ds ms)) := by
  refine ⟨fun metadatas => rfl, fun docs => ?_, fun d ds m ms => ?_⟩
  · cases docs <;> rfl
  · show String.intercalate "\n\n---\n\n"
        (List.zipWith contextBlock (d :: ds) (m :: ms)) = _
    rw [List.zipWith_cons_cons, intercalate_cons]
    by_cases hz : ds = [] ∨ ms = []
    · rw [if_pos (List.zipWith_eq_nil_iff.mpr hz), if_pos hz]
      rfl
    · rw [if_neg (fun h => hz (List.zipWith_eq_nil_iff.mp h)), if_neg hz]
      rfl

/-- Claim C10 (confirmed): every ingest call appends its documents to the
existing collection under freshly generated uuids and removes nothing: the
count after a call is the prior count plus the reported documents_added, the
new entries carry the successive uuids generated during the call, and two
successive ingest calls accumulate both batches on top of the original
contents. -/
theorem ingest_accumulates (wiki : String → Option (String × String))
    (uuid : Nat → String) (embedP : String → Except String (List Float))
    (c : Collection) :
    (ingest wiki uuid embedP (ingest wiki uuid embedP c).1).1.count
      = c.count + (ingest wiki uuid embedP c).2
          + (ingest wiki uuid embedP (ingest wiki uuid embedP c).1).2 ∧
    (ingest wiki uuid embedP (ingest wiki uuid embedP c).1).1.entries.take
        c.count = c.entries ∧
    ((ingest wiki uuid embedP c).1.entries.drop c.count).map Entry.id
      = (List.range (ingest wiki uuid embedP c).2).map uuid := by
  obtain ⟨-, -, hid, h4, h5⟩ := ingest_parts wiki uuid embedP c
  obtain ⟨-, -, -, g4, g5⟩ :=
    ingest_parts wiki uuid embedP (ingest wiki uuid embedP c).1
  refine ⟨?_, ?_, ?_⟩
  · rw [g4, h4]
  · have hle : c.count ≤ (ingest wiki uuid embedP c).1.count := by
      rw [h4]
      omega
    have hcc : (ingest wiki uuid embedP c).1.count
        = (ingest wiki uuid embedP c).1.entries.length := rfl
    calc (ingest wiki uuid embedP (ingest wiki uuid embedP c).1).1.entries.take
            c.count
        = ((ingest wiki uuid embedP
            (ingest wiki uuid embedP c).1).1.entries.take
              (ingest wiki uuid embedP c).1.count).take c.count := by
          rw [List.take_take, min_eq_left hle]
      _ = (ingest wiki uuid embedP c).1.entries.take c.count := by rw [g5]
      _ = c.entries := h5
  · obtain ⟨-, h2, -⟩ := ingestData_good wiki uuid
    rw [hid, h2]
    rfl
